import Mathlib

/-!
Verification development for `calculate.py` (omero-mpcli).

The file shallowly embeds the parts of the program that the specification
talks about:

* `FeatureFile` — the scoped lock/publish cache for one WorkItem
  (`FeatureFile.__init__`, `__enter__`, `save`, `__exit__`);
* `planeParamsGen` — per-plane WorkItem enumeration;
* `imageGenerator` — depth-first flattening of the object hierarchy;
* `genObjects` — root resolution (which raises on an unresolvable root);
* `example` — the per-item driver loop with its `try/except`.

Filesystem state is modelled per WorkItem: the content at the pending
(`.tmp`) path, the content at the final (`.npy`) path, whether the
exclusive advisory lock on the pending path is held, and whether the lock
file handle is open.  Blocking lock acquisition is modelled as eventually
succeeding in the single-attempt semantics; the interleaved multi-process
machine at the end of the definitions models the lock wait explicitly.
-/

/-- Bytes of a file's content. -/
abbrev Bytes := List Nat

/-- Content written by `numpy.save(fh, a)`: the `.npy` magic header followed
by the serialized array.  It is never empty (the format always begins with
the byte `0x93` and the string `NUMPY`). -/
def numpySave (a : List Int) : Bytes :=
  147 :: 78 :: 85 :: 77 :: 80 :: 89 :: a.map Int.toNat

/-- Result of the Python format `'%08d' % n` for a natural number:
the decimal digits, left-padded with zeros to at least width 8. -/
def zeroPad8 (n : Nat) : String :=
  String.mk (List.replicate (8 - (toString n).length) '0') ++ toString n

/-- Static part of a `FeatureFile` object as built by
`FeatureFile.__init__(self, iid, z, c, t)`: the category directory,
the filename stem and the final (`.npy`) path.  Neither width nor height
is an input. -/
structure FeatureFile where
  dir : String
  filename : String
  npy : String
  saved : Bool
deriving DecidableEq, Repr

/-- Translation of `FeatureFile.__init__(self, iid, z, c, t)`.  Note the
parameter order of the source: the second positional argument is the
z-slice and the third the channel, while the filename format
`'image%08d-c%d-z%d-t%d' % (iid, c, z, t)` places the channel after `-c`
and the z-slice after `-z`. -/
def FeatureFile.init (iid z c t : Nat) : FeatureFile :=
  let dir := "SmallFeatureSet"
  let filename := "image" ++ zeroPad8 iid ++ "-c" ++ toString c ++
    "-z" ++ toString z ++ "-t" ++ toString t
  { dir := dir
    filename := filename
    npy := dir ++ "/" ++ filename ++ ".npy"
    saved := false }

/-- Pending (lock/temp) path, `os.path.join(self.dir, self.filename + '.tmp')`
as computed in `FeatureFile.__enter__`. -/
def FeatureFile.lockPath (ff : FeatureFile) : String :=
  ff.dir ++ "/" ++ ff.filename ++ ".tmp"

/-- Filesystem state for one WorkItem's cache entry, as seen by one
acquisition attempt.

`pending`/`final` are the contents at the pending (`.tmp`) and the final
(`.npy`) path, `none` when the path does not exist; `locked` is the
exclusive advisory lock on the pending path; `fhOpen` is the lock file
handle (closing it releases the lock). -/
structure FsState where
  pending : Option Bytes
  final : Option Bytes
  locked : Bool
  fhOpen : Bool
deriving DecidableEq, Repr

/-- Behaviour of the environment during the final-path check in
`FeatureFile.__enter__`: the check runs normally on the recorded state,
or raises an `IOError` (which the code swallows with the comment
`Assume this is file not found` — the spec's "not found" signal), or
raises some other exception (the spec's `CacheCorruption`). -/
inductive EnterFault
  | noFault
  | ioError
  | otherError
deriving DecidableEq, Repr

/-- Result of `FeatureFile.__enter__`: the attempt reached the Open state,
or it raised `CalculationException` (`AlreadyComputed`), or it propagated
an unexpected check error. -/
inductive EnterResult
  | opened (st : FsState)
  | alreadyComputed (st : FsState)
  | fatal (st : FsState)
deriving DecidableEq, Repr

/-- Translation of `FeatureFile.__enter__`:
`open(lock, 'w+')` creates or truncates the pending path,
`portalocker.lock(fh, LOCK_EX)` takes the exclusive lock (blocking until
granted; the wait is outside this single-attempt semantics), then the
final path is checked.  A non-empty final file raises
`CalculationException`, caught by the bare `except:` which unlinks the
pending path and re-raises, and by the outer `except:` which closes the
handle (releasing the lock) and re-raises.  An `IOError` is swallowed and
the attempt proceeds to Open.  Any other check error is handled like the
exception case and propagates. -/
def FeatureFile.enter (st : FsState) (fault : EnterFault) : EnterResult :=
  let st1 : FsState := { st with pending := some [], locked := true, fhOpen := true }
  match fault with
  | .otherError =>
      .fatal { st1 with pending := none, locked := false, fhOpen := false }
  | .ioError =>
      .opened st1
  | .noFault =>
      match st.final with
      | some d =>
          if 0 < d.length then
            .alreadyComputed { st1 with pending := none, locked := false, fhOpen := false }
          else
            .opened st1
      | none => .opened st1

/-- Behaviour of the caller's body between `__enter__` and `__exit__`:
it may end without storing anything (normally or because it raised), call
`save` successfully (and then return or raise), or have `numpy.save`
itself raise after writing only a prefix `written`, in which case the
line `self.saved = True` is never reached. -/
inductive BodyAct
  | noSave
  | raisesNoSave
  | saveOk (a : List Int)
  | saveOkThenRaises (a : List Int)
  | saveRaises (written : Bytes)
deriving DecidableEq, Repr

/-- Whether the body completed a `save` call, setting the `saved` flag. -/
def bodySaves : BodyAct → Bool
  | .saveOk _ => true
  | .saveOkThenRaises _ => true
  | _ => false

/-- Effect of the body on the attempt's state: `FeatureFile.save` writes
`numpy.save(self.fh, a)` into the pending file and then sets
`self.saved = True`; a failing `numpy.save` leaves only a prefix written
and the flag false.  Returns the new state and the `saved` flag. -/
def runBody (st : FsState) : BodyAct → FsState × Bool
  | .noSave => (st, false)
  | .raisesNoSave => (st, false)
  | .saveOk a => ({ st with pending := some (numpySave a) }, true)
  | .saveOkThenRaises a => ({ st with pending := some (numpySave a) }, true)
  | .saveRaises w => ({ st with pending := some w }, false)

/-- Translation of `FeatureFile.__exit__` (run by the `with` statement on
every exit path): if `saved`, `os.rename(self.fh.name, self.npy)` moves
the pending content to the final path, else `os.unlink(self.fh.name)`
deletes the pending path; then `self.fh.close()` closes the handle,
releasing the advisory lock. -/
def FeatureFile.exit (st : FsState) (saved : Bool) : FsState :=
  if saved then
    { st with final := st.pending, pending := none, locked := false, fhOpen := false }
  else
    { st with pending := none, locked := false, fhOpen := false }

/-- Filesystem-level outcome of one acquisition attempt.  A body that
raised after a completed `save` still publishes (the exception then
propagates to the caller); `fatal` is a propagated check error. -/
inductive Outcome
  | published
  | discarded
  | alreadyComputed
  | fatal
deriving DecidableEq, Repr

/-- One acquisition attempt: the environment's check behaviour and the
caller's body. -/
structure Attempt where
  fault : EnterFault
  body : BodyAct
deriving DecidableEq, Repr

/-- Run one `with FeatureFile(...) as ff: ...` scope on the entry's state:
`__enter__`, then (only if Open was reached) the body, then `__exit__`. -/
def runAttempt (st : FsState) (att : Attempt) : Outcome × FsState :=
  match FeatureFile.enter st att.fault with
  | .alreadyComputed st1 => (.alreadyComputed, st1)
  | .fatal st1 => (.fatal, st1)
  | .opened st1 =>
      let r := runBody st1 att.body
      ((if r.2 then Outcome.published else Outcome.discarded), FeatureFile.exit r.1 r.2)

/-- Run a sequence of non-overlapping acquisition attempts on the same
WorkItem's cache entry, collecting their outcomes. -/
def runAttempts (st : FsState) : List Attempt → List Outcome × FsState
  | [] => ([], st)
  | a :: rest =>
      let r := runAttempt st a
      let rs := runAttempts r.2 rest
      (r.1 :: rs.1, rs.2)

/-- Number of published outcomes in a list. -/
def countPublished (os : List Outcome) : Nat :=
  (os.filter fun o => decide (o = Outcome.published)).length

/-- Whether the final path exists with non-empty content. -/
def finalHasData (st : FsState) : Bool :=
  match st.final with
  | some d => 0 < d.length
  | none => false

/-- Program counter of one process running the `with FeatureFile` scope in
the interleaved multi-process semantics: before `open`, waiting for the
lock, at the final-path check, in the Open state, about to run
`__exit__`, and finished. -/
inductive PC
  | start
  | waitLock
  | checking
  | opened
  | exiting
  | done
deriving DecidableEq, Repr

/-- One process attempting the same WorkItem: its program counter, its
`saved` flag, whether its body calls `save` (with payload), and its
recorded outcome. -/
structure Proc where
  pc : PC
  saved : Bool
  wantsSave : Bool
  payload : List Int
  outcome : Option Outcome
deriving DecidableEq, Repr

/-- Shared state of several uncoordinated processes attempting the same
WorkItem on one filesystem: the pending and final path contents, the
holder of the exclusive advisory lock on the pending path, and the
processes. -/
structure MState where
  pending : Option Bytes
  final : Option Bytes
  owner : Option Nat
  procs : List Proc
deriving DecidableEq, Repr

/-- One small step of process `i`.  `open(lock, 'w+')` truncates or
creates the pending path and needs no lock; `portalocker.lock` succeeds
only when no one holds the lock (otherwise the process stays blocked);
check, save and scope exit behave as in the single-attempt semantics and
are only ever executed by the lock holder. -/
def step (g : MState) (i : Nat) : MState :=
  match g.procs.get? i with
  | none => g
  | some p =>
    match p.pc with
    | .start =>
        { g with pending := some [], procs := g.procs.set i { p with pc := .waitLock } }
    | .waitLock =>
        match g.owner with
        | none => { g with owner := some i, procs := g.procs.set i { p with pc := .checking } }
        | some _ => g
    | .checking =>
        match g.final with
        | some d =>
            if 0 < d.length then
              { g with pending := none, owner := none,
                       procs := g.procs.set i
                         { p with pc := .done, outcome := some Outcome.alreadyComputed } }
            else
              { g with procs := g.procs.set i { p with pc := .opened } }
        | none => { g with procs := g.procs.set i { p with pc := .opened } }
    | .opened =>
        if p.wantsSave then
          { g with pending := some (numpySave p.payload),
                   procs := g.procs.set i { p with pc := .exiting, saved := true } }
        else
          { g with procs := g.procs.set i { p with pc := .exiting } }
    | .exiting =>
        if p.saved then
          { g with final := g.pending, pending := none, owner := none,
                   procs := g.procs.set i
                     { p with pc := .done, outcome := some Outcome.published } }
        else
          { g with pending := none, owner := none,
                   procs := g.procs.set i
                     { p with pc := .done, outcome := some Outcome.discarded } }
    | .done => g

/-- Run a schedule: at each tick the named process takes its next step. -/
def runSched (g : MState) (sched : List Nat) : MState :=
  sched.foldl step g

/-- Fresh process whose body saves `a` when `w` is true. -/
def initProc (w : Bool) (a : List Int) : Proc :=
  { pc := .start, saved := false, wantsSave := w, payload := a, outcome := none }

/-- Three fresh processes attempting the same WorkItem whose cache entry
does not exist yet. -/
def cxInit : MState :=
  { pending := none, final := none, owner := none,
    procs := [initProc true [1], initProc true [2], initProc true [3]] }

/-- Schedule exhibiting the open-truncation race: process 0 opens, locks,
checks and saves; process 1 merely executes its `open(lock, 'w+')`,
truncating the pending file process 0 has already saved into; process 0
then exits and publishes (an empty final file); process 2 runs an entire
attempt afterwards, finds the final path empty, and publishes again. -/
def cxSched : List Nat :=
  [0, 0, 0, 0, 1, 0, 2, 2, 2, 2, 2]

/-- Number of processes whose recorded outcome is `published`. -/
def countPublishedProcs (g : MState) : Nat :=
  (g.procs.filter fun p => decide (p.outcome = some Outcome.published)).length

/-- Dimension data of one image handle. -/
structure ImageDims where
  id : Nat
  sizeX : Nat
  sizeY : Nat
  sizeC : Nat
  sizeZ : Nat
  sizeT : Nat
deriving DecidableEq, Repr

/-- One parameter tuple `(im.id, c, z, t, im.getSizeX(), im.getSizeY())`
yielded by `planeParamsGen`. -/
structure PlaneParams where
  iid : Nat
  c : Nat
  z : Nat
  t : Nat
  sizeX : Nat
  sizeY : Nat
deriving DecidableEq, Repr

/-- Translation of `planeParamsGen(im)` in `Calculator.genComputationList`:
`for c in xrange(im.getSizeC()): for z in xrange(im.getSizeZ()):
for t in xrange(im.getSizeT()): yield (im.id, c, z, t, sizeX, sizeY)`. -/
def planeParamsGen (im : ImageDims) : List PlaneParams :=
  (List.range im.sizeC).flatMap fun c =>
    (List.range im.sizeZ).flatMap fun z =>
      (List.range im.sizeT).map fun t =>
        { iid := im.id, c := c, z := z, t := t, sizeX := im.sizeX, sizeY := im.sizeY }

/-- Strict lexicographic order on the `(c, z, t)` part of plane
parameters: channel outermost, z-slice middle, time innermost. -/
def planeLt (p q : PlaneParams) : Prop :=
  p.c < q.c ∨ (p.c = q.c ∧ (p.z < q.z ∨ (p.z = q.z ∧ p.t < q.t)))

/-- Node of the object hierarchy: a leaf image (an
`omero.gateway._ImageWrapper`) or any other wrapper, seen only through
`listChildren()`. -/
inductive Node
  | image (dims : ImageDims)
  | container (children : List Node)

/-- Whether a node is an image leaf. -/
def Node.isImage : Node → Bool
  | .image _ => true
  | .container _ => false

/-- Translation of `Calculator.imageGenerator(objs)`: for each node,
yield it if it is an image, else recursively walk `listChildren()` and
yield every image found. -/
def imageGenerator : List Node → List Node
  | [] => []
  | Node.image d :: rest => Node.image d :: imageGenerator rest
  | Node.container cs :: rest => imageGenerator cs ++ imageGenerator rest

/-- Root designator handed to `conn.getObject`. -/
abbrev TypeId := String × Nat

/-- Translation of `Calculator.genObjects(typeids)`: resolve each
`(TypeName, Id)` through `conn.getObject`; an unresolvable root raises
`CalculationException` inside the generator, so the consumer receives the
previously yielded objects and then the exception — nothing after the
failing root is ever yielded.  The boolean records whether the generator
aborted with that exception. -/
def genObjects (getObject : TypeId → Option Node) : List TypeId → List Node × Bool
  | [] => ([], false)
  | ti :: rest =>
      match getObject ti with
      | none => ([], true)
      | some o =>
          let r := genObjects getObject rest
          (o :: r.1, r.2)

/-- Environment for the `genObjects` counterexample: only the root
`("Image", 2)` resolves. -/
def lookupEx : TypeId → Option Node :=
  fun ti =>
    if ti = ("Image", 2) then
      some (Node.image { id := 2, sizeX := 1, sizeY := 1, sizeC := 1, sizeZ := 1, sizeT := 1 })
    else none

/-- Error raised while processing one item of the `example()` loop.
`lockException` and `calculationException` are the two classes named in
the `except` clause; anything else is uncaught. -/
inductive ItemError
  | lockException
  | calculationException
  | otherException
deriving DecidableEq, Repr

/-- Whether `example()`'s `except (portalocker.LockException,
CalculationException)` clause catches the error. -/
def exampleCaught : ItemError → Bool
  | .lockException => true
  | .calculationException => true
  | .otherException => false

/-- The `for iid in ...` loop of `example()`: each iteration runs one
`with FeatureFile(iid, 0, 0, 0)` block, abstracted by `attempt`; a caught
error is logged and the loop continues; an uncaught error propagates and
aborts the loop.  Returns the per-item outcomes of the iterations that
ran, and whether the loop aborted. -/
def exampleLoop (attempt : Nat → Option ItemError) :
    List Nat → List (Nat × Option ItemError) × Bool
  | [] => ([], false)
  | i :: rest =>
      match attempt i with
      | none =>
          let r := exampleLoop attempt rest
          ((i, none) :: r.1, r.2)
      | some e =>
          if exampleCaught e then
            let r := exampleLoop attempt rest
            ((i, some e) :: r.1, r.2)
          else
            ([(i, some e)], true)

/-- Translation of `example()`: the loop body over `range(10)`. -/
def exampleRun (attempt : Nat → Option ItemError) :
    List (Nat × Option ItemError) × Bool :=
  exampleLoop attempt (List.range 10)

/-- Attempt behaviour used by the `exampleRun` witness: item 3 hits a
`CalculationException` (its feature file already exists), every other
item succeeds. -/
def attemptEx : Nat → Option ItemError :=
  fun i => if i = 3 then some ItemError.calculationException else none

/-! ## Helper lemmas -/

/-- Shape of the state in which `FeatureFile.__enter__` hands control to
the body: the pending path truncated to empty, the lock held, the handle
open, everything else untouched. -/
theorem enter_opened_shape (st st1 : FsState) (f : EnterFault)
    (h : FeatureFile.enter st f = EnterResult.opened st1) :
    st1 = { st with pending := some [], locked := true, fhOpen := true } := by
  cases f with
  | otherError => simp [FeatureFile.enter] at h
  | ioError => simp [FeatureFile.enter] at h; exact h.symm
  | noFault =>
      unfold FeatureFile.enter at h
      cases hf : st.final with
      | none => rw [hf] at h; simp at h; exact h.symm
      | some d =>
          rw [hf] at h
          by_cases hd : 0 < d.length
          · simp [hd] at h
          · simp [hd] at h; exact h.symm

/-- Content written by `numpy.save` is never empty. -/
theorem numpySave_length_pos (a : List Int) : 0 < (numpySave a).length := by
  simp [numpySave]

/-! ## Claim theorems -/

/-- C1: for every acquisition that reaches the Open state, on every scope
exit path (normal return, or an exception raised in the body, including a
`numpy.save` that raised mid-write) `__exit__` runs and: if `save`
completed (the `saved` flag is set), the pending path is renamed to the
final path, publishing the saved bytes; if `save` never completed, the
pending path is deleted and the final path is left exactly as it was; in
both cases the lock file handle is closed, releasing the lock. -/
theorem C1_scope_exit_publishes_or_discards (st st1 : FsState) (f : EnterFault) (b : BodyAct)
    (h : FeatureFile.enter st f = EnterResult.opened st1) :
    ((runAttempt st ⟨f, b⟩).2.locked = false ∧ (runAttempt st ⟨f, b⟩).2.fhOpen = false) ∧
    (bodySaves b = true →
      (runAttempt st ⟨f, b⟩).1 = Outcome.published ∧
      (runAttempt st ⟨f, b⟩).2.pending = none ∧
      ∃ a, (b = BodyAct.saveOk a ∨ b = BodyAct.saveOkThenRaises a) ∧
        (runAttempt st ⟨f, b⟩).2.final = some (numpySave a)) ∧
    (bodySaves b = false →
      (runAttempt st ⟨f, b⟩).1 = Outcome.discarded ∧
      (runAttempt st ⟨f, b⟩).2.pending = none ∧
      (runAttempt st ⟨f, b⟩).2.final = st.final) := by
  have hs := enter_opened_shape st st1 f h
  subst hs
  cases b <;>
    simp [runAttempt, h, runBody, bodySaves, FeatureFile.exit]

/-- Witness for C1: from a fresh cache entry, an attempt whose body saves
the array `[5]` ends with the lock released and the record published. -/
theorem C1_scope_exit_publishes_or_discards_witness :
    (runAttempt { pending := none, final := none, locked := false, fhOpen := false }
        ⟨EnterFault.noFault, BodyAct.saveOk [5]⟩).2.locked = false ∧
    (runAttempt { pending := none, final := none, locked := false, fhOpen := false }
        ⟨EnterFault.noFault, BodyAct.saveOk [5]⟩).1 = Outcome.published := by
  have h := C1_scope_exit_publishes_or_discards
    { pending := none, final := none, locked := false, fhOpen := false }
    { pending := some [], final := none, locked := true, fhOpen := true }
    EnterFault.noFault (BodyAct.saveOk [5]) rfl
  exact ⟨h.1.1, (h.2.1 rfl).1⟩

/-- C3: when the final path already exists with non-empty content, the
acquisition fails with `AlreadyComputed` (`CalculationException`), the
pending path is deleted, the handle is closed releasing the lock, the
final path is untouched, and the result does not depend on the body at
all — the Open state is never reached and the caller's compute function
is never invoked. -/
theorem C3_fast_fail_already_computed (st : FsState) (d : Bytes) (b b' : BodyAct)
    (hd : st.final = some d) (hlen : 0 < d.length) :
    runAttempt st ⟨EnterFault.noFault, b⟩ =
      (Outcome.alreadyComputed,
       { st with pending := none, locked := false, fhOpen := false }) ∧
    runAttempt st ⟨EnterFault.noFault, b⟩ = runAttempt st ⟨EnterFault.noFault, b'⟩ := by
  have henter : FeatureFile.enter st EnterFault.noFault =
      EnterResult.alreadyComputed { st with pending := none, locked := false, fhOpen := false } := by
    unfold FeatureFile.enter
    rw [hd]
    simp [hlen]
  exact ⟨by simp [runAttempt, henter], by simp [runAttempt, henter]⟩

/-- Witness for C3: with `[1]` already at the final path, an attempt with
a saving body fails with `AlreadyComputed`, deletes the pending path and
releases the lock, exactly like an attempt whose body would not save. -/
theorem C3_fast_fail_already_computed_witness :
    runAttempt { pending := none, final := some [1], locked := false, fhOpen := false }
        ⟨EnterFault.noFault, BodyAct.saveOk [2]⟩ =
      (Outcome.alreadyComputed,
       { pending := none, final := some [1], locked := false, fhOpen := false }) ∧
    runAttempt { pending := none, final := some [1], locked := false, fhOpen := false }
        ⟨EnterFault.noFault, BodyAct.saveOk [2]⟩ =
      runAttempt { pending := none, final := some [1], locked := false, fhOpen := false }
        ⟨EnterFault.noFault, BodyAct.noSave⟩ :=
  C3_fast_fail_already_computed
    { pending := none, final := some [1], locked := false, fhOpen := false }
    [1] (BodyAct.saveOk [2]) BodyAct.noSave rfl (by decide)

/-- C4: when the final-path check raises any error other than the
"not found" signal, the pending path is deleted, the handle is closed
releasing the lock, the final path is untouched and the error is
propagated as fatal for the attempt (outcome `fatal`), independently of
the body, which never runs. -/
theorem C4_check_error_is_fatal (st : FsState) (b b' : BodyAct) :
    runAttempt st ⟨EnterFault.otherError, b⟩ =
      (Outcome.fatal, { st with pending := none, locked := false, fhOpen := false }) ∧
    runAttempt st ⟨EnterFault.otherError, b⟩ = runAttempt st ⟨EnterFault.otherError, b'⟩ :=
  ⟨rfl, rfl⟩

/-- C9: when `numpy.save` raises before the write completes, the `saved`
flag stays false, so scope exit deletes the pending path instead of
renaming it: the outcome is `discarded` and the final path is exactly
what it was before the attempt — the partial record is never published. -/
theorem C9_failed_save_never_published (st st1 : FsState) (f : EnterFault) (w : Bytes)
    (h : FeatureFile.enter st f = EnterResult.opened st1) :
    (runBody st1 (BodyAct.saveRaises w)).2 = false ∧
    runAttempt st ⟨f, BodyAct.saveRaises w⟩ =
      (Outcome.discarded, { st with pending := none, locked := false, fhOpen := false }) := by
  have hs := enter_opened_shape st st1 f h
  subst hs
  exact ⟨rfl, by simp [runAttempt, h, runBody, FeatureFile.exit]⟩

/-- Witness for C9: a save of which only the first magic byte was written
is discarded and nothing appears at the final path. -/
theorem C9_failed_save_never_published_witness :
    runAttempt { pending := none, final := none, locked := false, fhOpen := false }
        ⟨EnterFault.noFault, BodyAct.saveRaises [147]⟩ =
      (Outcome.discarded,
       { pending := none, final := none, locked := false, fhOpen := false }) :=
  (C9_failed_save_never_published
    { pending := none, final := none, locked := false, fhOpen := false }
    { pending := some [], final := none, locked := true, fhOpen := true }
    EnterFault.noFault [147] rfl).2

/-- C10: `__enter__` opens the pending path with mode `'w+'`
(create-or-truncate), so whenever the final path is absent or empty and
the lock is free, acquisition reaches the Open state whatever the pending
path previously contained: an orphaned pending file from a crashed
attempt is truncated to empty rather than making the attempt fail. -/
theorem C10_orphan_pending_truncated (st : FsState)
    (hlock : st.locked = false)
    (hfin : st.final = none ∨ st.final = some []) :
    FeatureFile.enter st EnterFault.noFault =
      EnterResult.opened { st with pending := some [], locked := true, fhOpen := true } := by
  unfold FeatureFile.enter
  rcases hfin with h | h <;> rw [h] <;> simp

/-- Witness for C10: an orphaned pending file with stale content `[9, 9]`
does not block a fresh acquisition; the entry opens with the pending file
truncated. -/
theorem C10_orphan_pending_truncated_witness :
    FeatureFile.enter
        { pending := some [9, 9], final := none, locked := false, fhOpen := false }
        EnterFault.noFault =
      EnterResult.opened
        { pending := some [], final := none, locked := true, fhOpen := true } :=
  C10_orphan_pending_truncated
    { pending := some [9, 9], final := none, locked := false, fhOpen := false }
    rfl (Or.inl rfl)

/-- Behaviour of a fault-free attempt when the final path already holds
data: it fails with `AlreadyComputed` and leaves the final path as is. -/
theorem runAttempt_data (st : FsState) (b : BodyAct) (hd : finalHasData st = true) :
    runAttempt st ⟨EnterFault.noFault, b⟩ =
      (Outcome.alreadyComputed,
       { st with pending := none, locked := false, fhOpen := false }) := by
  unfold finalHasData at hd
  cases hf : st.final with
  | none => rw [hf] at hd; simp at hd
  | some d =>
      rw [hf] at hd
      simp only [decide_eq_true_eq] at hd
      have henter : FeatureFile.enter st EnterFault.noFault =
          EnterResult.alreadyComputed
            { st with pending := none, locked := false, fhOpen := false } := by
        unfold FeatureFile.enter
        rw [hf]
        simp [hd]
      simp [runAttempt, henter, hf]

/-- Behaviour of a fault-free attempt when the final path is absent or
empty: it reaches Open; a saving body publishes (making the final path
non-empty), a non-saving body discards (leaving the final path as it
was). -/
theorem runAttempt_nodata (st : FsState) (b : BodyAct) (hd : finalHasData st = false) :
    ((runAttempt st ⟨EnterFault.noFault, b⟩).1 = Outcome.published ∨
     (runAttempt st ⟨EnterFault.noFault, b⟩).1 = Outcome.discarded) ∧
    ((runAttempt st ⟨EnterFault.noFault, b⟩).1 = Outcome.published →
      finalHasData (runAttempt st ⟨EnterFault.noFault, b⟩).2 = true) ∧
    ((runAttempt st ⟨EnterFault.noFault, b⟩).1 = Outcome.discarded →
      finalHasData (runAttempt st ⟨EnterFault.noFault, b⟩).2 = false) := by
  have henter : FeatureFile.enter st EnterFault.noFault =
      EnterResult.opened { st with pending := some [], locked := true, fhOpen := true } := by
    unfold finalHasData at hd
    unfold FeatureFile.enter
    cases hf : st.final with
    | none => simp
    | some d =>
        rw [hf] at hd
        have hd' : ¬ 0 < d.length := by simpa using hd
        simp [hd']
  cases b <;>
    simp [runAttempt, henter, runBody, FeatureFile.exit, finalHasData,
      numpySave_length_pos, hd] <;>
    try exact hd

/-- Unfolding of `countPublished` over a cons cell. -/
theorem countPublished_cons (o : Outcome) (os : List Outcome) :
    countPublished (o :: os) =
      countPublished os + (if o = Outcome.published then 1 else 0) := by
  by_cases h : o = Outcome.published <;>
    simp [countPublished, List.filter_cons, h, Nat.add_comm]

/-- Invariant of serialized fault-free attempts: once the final path holds
data no later attempt publishes; overall at most one attempt publishes;
and every outcome is published, `AlreadyComputed` or discarded. -/
theorem runAttempts_invariant (acts : List Attempt) :
    ∀ st : FsState, (∀ a ∈ acts, a.fault = EnterFault.noFault) →
    (finalHasData st = true → countPublished (runAttempts st acts).1 = 0) ∧
    countPublished (runAttempts st acts).1 ≤ 1 ∧
    ∀ o ∈ (runAttempts st acts).1,
      o = Outcome.published ∨ o = Outcome.alreadyComputed ∨ o = Outcome.discarded := by
  induction acts with
  | nil => intro st _; simp [runAttempts, countPublished]
  | cons a rest ih =>
      intro st hf
      have hfa : a.fault = EnterFault.noFault := hf a (List.mem_cons_self a rest)
      have hfr : ∀ x ∈ rest, x.fault = EnterFault.noFault :=
        fun x hx => hf x (List.mem_cons_of_mem a hx)
      obtain ⟨fa, ba⟩ := a
      simp only at hfa
      subst hfa
      cases hdata : finalHasData st with
      | true =>
          have hrun := runAttempt_data st ba hdata
          have hnext : finalHasData
              { st with pending := none, locked := false, fhOpen := false } = true := by
            unfold finalHasData at hdata ⊢
            exact hdata
          obtain ⟨ih0, ih1, ih2⟩ :=
            ih { st with pending := none, locked := false, fhOpen := false } hfr
          refine ⟨?_, ?_, ?_⟩ <;>
            simp only [runAttempts, hrun, countPublished_cons]
          · intro _
            simp [ih0 hnext]
          · simp [ih0 hnext]
          · intro o ho
            rcases List.mem_cons.mp ho with h | h
            · exact Or.inr (Or.inl h)
            · exact ih2 o h
      | false =>
          have hrun := runAttempt_nodata st ba hdata
          obtain ⟨ih0, ih1, ih2⟩ := ih (runAttempt st ⟨EnterFault.noFault, ba⟩).2 hfr
          refine ⟨?_, ?_, ?_⟩
          · intro habs
            exact (Bool.false_ne_true habs).elim
          · rcases hrun.1 with hpub | hdis
            · have h0 := ih0 (hrun.2.1 hpub)
              simp only [runAttempts, countPublished_cons]
              simp [hpub, h0]
            · simp only [runAttempts, countPublished_cons]
              simp only [hdis]
              simp [ih1]
          · intro o ho
            simp only [runAttempts] at ho
            rcases List.mem_cons.mp ho with h | h
            · subst h
              rcases hrun.1 with hpub | hdis
              · exact Or.inl hpub
              · exact Or.inr (Or.inr hdis)
            · exact ih2 o h

/-- C2 counterexample: the advisory lock does not serialize whole
acquisition attempts, because `open(lock, 'w+')` in `__enter__` truncates
the pending path before the lock is requested.  In the interleaved
semantics, process 0 opens, locks, checks and saves; process 1 merely
executes its `open` (truncating the pending file under process 0's lock);
process 0 then exits, renaming the now-empty pending file to the final
path — a publish of an empty final file; process 2 afterwards runs a
complete uncontended attempt, finds the final path empty, and publishes
again.  Two attempts publish, refuting the claim that at most one
attempt ever publishes and that every other attempt fails with
`AlreadyComputed` or discards. -/
theorem C2_counterexample :
    countPublishedProcs (runSched cxInit cxSched) = 2 ∧
    (runSched cxInit cxSched).final = some (numpySave [3]) ∧
    ¬ countPublishedProcs (runSched cxInit cxSched) ≤ 1 := by
  refine ⟨by decide, by decide, by decide⟩

/-- C2 as amended: when acquisition attempts on the same WorkItem do not
overlap (each scope, from its `open` of the pending path to its exit, is
serialized — which the lock alone does not enforce) and the final-path
checks run without environmental faults, at most one attempt ever
publishes, and every attempt's outcome is published, `AlreadyComputed`
(observed non-empty final path) or discarded. -/
theorem C2_serialized_at_most_one_publish (st : FsState) (acts : List Attempt)
    (h : ∀ a ∈ acts, a.fault = EnterFault.noFault) :
    countPublished (runAttempts st acts).1 ≤ 1 ∧
    ∀ o ∈ (runAttempts st acts).1,
      o = Outcome.published ∨ o = Outcome.alreadyComputed ∨ o = Outcome.discarded :=
  ⟨(runAttempts_invariant acts st h).2.1, (runAttempts_invariant acts st h).2.2⟩

/-- Witness for the amended C2: two serialized saving attempts followed by
a discarding one on a fresh entry produce exactly one publish. -/
theorem C2_serialized_at_most_one_publish_witness :
    countPublished
      (runAttempts { pending := none, final := none, locked := false, fhOpen := false }
        [⟨EnterFault.noFault, BodyAct.saveOk [1]⟩,
         ⟨EnterFault.noFault, BodyAct.saveOk [2]⟩,
         ⟨EnterFault.noFault, BodyAct.noSave⟩]).1 ≤ 1 :=
  (C2_serialized_at_most_one_publish
    { pending := none, final := none, locked := false, fhOpen := false }
    [⟨EnterFault.noFault, BodyAct.saveOk [1]⟩,
     ⟨EnterFault.noFault, BodyAct.saveOk [2]⟩,
     ⟨EnterFault.noFault, BodyAct.noSave⟩]
    (by decide)).1

/-- C5 counterexample: `genObjects` raises `CalculationException` for an
unresolvable `(TypeName, Id)` root — the exception propagates out of the
generator and aborts the enumeration.  With an environment in which only
`("Image", 2)` resolves, the root list `[("Dataset", 1), ("Image", 2)]`
yields nothing and aborts, even though the second root alone yields its
image: the failing item's error is not an independent per-item outcome,
and it does abort the processing of the subsequent item. -/
theorem C5_counterexample :
    genObjects lookupEx [("Dataset", 1), ("Image", 2)] = ([], true) ∧
    genObjects lookupEx [("Image", 2)] =
      ([Node.image { id := 2, sizeX := 1, sizeY := 1, sizeC := 1, sizeZ := 1, sizeT := 1 }],
       false) := by
  constructor <;> rfl

/-- Unfolding of one `example()` iteration whose attempt succeeds. -/
theorem exampleLoop_cons_ok (attempt : Nat → Option ItemError) (i : Nat) (rest : List Nat)
    (ha : attempt i = none) :
    exampleLoop attempt (i :: rest) =
      ((i, none) :: (exampleLoop attempt rest).1, (exampleLoop attempt rest).2) := by
  simp [exampleLoop, ha]

/-- Unfolding of one `example()` iteration whose attempt raises an error
the `except` clause catches: the error is logged as that item's outcome
and the loop continues. -/
theorem exampleLoop_cons_caught (attempt : Nat → Option ItemError) (i : Nat)
    (rest : List Nat) (e : ItemError)
    (ha : attempt i = some e) (hc : exampleCaught e = true) :
    exampleLoop attempt (i :: rest) =
      ((i, some e) :: (exampleLoop attempt rest).1, (exampleLoop attempt rest).2) := by
  simp [exampleLoop, ha, hc]

/-- Per-item isolation of the `example()` loop over an arbitrary item
list: when no attempt raises an uncaught error, the loop never aborts,
runs every item, and records each item's own attempt result as its
outcome. -/
theorem exampleLoop_isolation (attempt : Nat → Option ItemError)
    (h : ∀ i, attempt i ≠ some ItemError.otherException) :
    ∀ ids : List Nat,
      (exampleLoop attempt ids).2 = false ∧
      (exampleLoop attempt ids).1.map Prod.fst = ids ∧
      ∀ pr ∈ (exampleLoop attempt ids).1, attempt pr.1 = pr.2 := by
  intro ids
  induction ids with
  | nil => refine ⟨rfl, rfl, ?_⟩; intro pr hpr; simp [exampleLoop] at hpr
  | cons i rest ih =>
      obtain ⟨ih1, ih2, ih3⟩ := ih
      have hstep : exampleLoop attempt (i :: rest) =
          ((i, attempt i) :: (exampleLoop attempt rest).1, (exampleLoop attempt rest).2) := by
        cases ha : attempt i with
        | none => exact exampleLoop_cons_ok attempt i rest ha
        | some e =>
            cases e with
            | otherException => exact absurd ha (h i)
            | lockException => exact exampleLoop_cons_caught attempt i rest _ ha rfl
            | calculationException => exact exampleLoop_cons_caught attempt i rest _ ha rfl
      rw [hstep]
      refine ⟨ih1, by simp [ih2], ?_⟩
      intro pr hpr
      rcases List.mem_cons.mp hpr with hpr | hpr
      · rw [hpr]
      · exact ih3 pr hpr

/-- C5 as amended: inside the per-item loop of `example()`, an error of a
kind the `except` clause names (`portalocker.LockException`,
`CalculationException` — lock/dedup failures) is caught, logged as that
item's outcome, and does not abort the loop or the processing of
subsequent items: with no uncaught errors, all ten items run and each
recorded outcome is that item's own attempt result.  By contrast, an
unresolvable `(TypeName, Id)` root makes `genObjects` raise, so the
enclosing enumeration aborts at that root and yields nothing after it. -/
theorem C5_item_errors_isolated_in_loop (attempt : Nat → Option ItemError)
    (h : ∀ i, attempt i ≠ some ItemError.otherException) :
    ((exampleRun attempt).2 = false ∧
     (exampleRun attempt).1.map Prod.fst = List.range 10 ∧
     ∀ pr ∈ (exampleRun attempt).1, attempt pr.1 = pr.2) ∧
    (∀ (g : TypeId → Option Node) (ti : TypeId) (rest : List TypeId),
      g ti = none → genObjects g (ti :: rest) = ([], true)) := by
  refine ⟨exampleLoop_isolation attempt h (List.range 10), ?_⟩
  intro g ti rest hg
  simp [genObjects, hg]

/-- Witness for the amended C5: with item 3 hitting a caught
`CalculationException`, the loop still runs all ten items and reports the
error as item 3's outcome. -/
theorem C5_item_errors_isolated_in_loop_witness :
    (exampleRun attemptEx).2 = false ∧
    (exampleRun attemptEx).1.map Prod.fst = List.range 10 ∧
    ∀ pr ∈ (exampleRun attemptEx).1, attemptEx pr.1 = pr.2 :=
  (C5_item_errors_isolated_in_loop attemptEx
    (by
      intro i
      unfold attemptEx
      split <;> simp)).1

/-- Walking a concatenation of node lists concatenates the walks: the
generator yields depth-first, preserving listing order. -/
theorem imageGenerator_append (xs ys : List Node) :
    imageGenerator (xs ++ ys) = imageGenerator xs ++ imageGenerator ys := by
  induction xs with
  | nil => simp [imageGenerator]
  | cons o rest ih =>
      cases o with
      | image d => simp [imageGenerator, ih]
      | container cs => simp [imageGenerator, ih]

/-- Every node the generator yields is an image leaf. -/
theorem imageGenerator_only_images :
    ∀ objs : List Node, ∀ x ∈ imageGenerator objs, x.isImage = true := by
  intro objs
  induction objs using imageGenerator.induct with
  | case1 => simp [imageGenerator]
  | case2 d rest ih =>
      intro x hx
      simp only [imageGenerator, List.mem_cons] at hx
      rcases hx with hx | hx
      · rw [hx]; rfl
      · exact ih x hx
  | case3 cs rest ih1 ih2 =>
      intro x hx
      simp only [imageGenerator, List.mem_append] at hx
      rcases hx with hx | hx
      · exact ih1 x hx
      · exact ih2 x hx

/-- C7: `imageGenerator` flattens the hierarchy to exactly its image
leaves in depth-first order preserving each container's listing order:
it is a homomorphism on list concatenation, maps an image leaf to itself,
maps a container to the walk of its children, yields only images, and on
the concrete shape `container [ImageA, container [ImageB]]` yields
`[ImageA, ImageB]`. -/
theorem C7_walk_flattens_depth_first :
    (∀ xs ys : List Node,
      imageGenerator (xs ++ ys) = imageGenerator xs ++ imageGenerator ys) ∧
    (∀ d, imageGenerator [Node.image d] = [Node.image d]) ∧
    (∀ cs, imageGenerator [Node.container cs] = imageGenerator cs) ∧
    (∀ objs : List Node, ∀ x ∈ imageGenerator objs, x.isImage = true) ∧
    (∀ dA dB, imageGenerator
        [Node.container [Node.image dA, Node.container [Node.image dB]]] =
        [Node.image dA, Node.image dB]) := by
  refine ⟨imageGenerator_append, ?_, ?_, imageGenerator_only_images, ?_⟩
  · intro d; simp [imageGenerator]
  · intro cs; simp [imageGenerator]
  · intro dA dB; simp [imageGenerator]

/-- Length of a `flatMap` over `List.range` with blocks of equal size. -/
theorem range_flatMap_length {α : Type} (n k : Nat) (f : Nat → List α)
    (h : ∀ i, (f i).length = k) :
    ((List.range n).flatMap f).length = n * k := by
  induction n with
  | zero => simp
  | succ m ih =>
      rw [List.range_succ, List.flatMap_append]
      simp [List.length_append, ih, h, Nat.succ_mul]

/-- Pairwise order of a `flatMap` over `List.range` from inner order and
cross-block order. -/
theorem range_flatMap_pairwise {α : Type} (R : α → α → Prop) (n : Nat) (f : Nat → List α)
    (hin : ∀ i, (f i).Pairwise R)
    (hcross : ∀ i j, i < j → ∀ x ∈ f i, ∀ y ∈ f j, R x y) :
    ((List.range n).flatMap f).Pairwise R := by
  induction n with
  | zero => simp
  | succ m ih =>
      rw [List.range_succ, List.flatMap_append, List.pairwise_append]
      refine ⟨ih, by simpa using hin m, ?_⟩
      intro x hx y hy
      simp only [List.mem_flatMap, List.mem_range] at hx
      obtain ⟨i, hi, hxi⟩ := hx
      simp only [List.flatMap_cons, List.flatMap_nil, List.append_nil] at hy
      exact hcross i m hi x hxi y hy

/-- Membership in the plane enumeration is exactly the in-bounds tuples
carrying the image's id, width and height. -/
theorem mem_planeParamsGen (im : ImageDims) (p : PlaneParams) :
    p ∈ planeParamsGen im ↔
      (p.iid = im.id ∧ p.c < im.sizeC ∧ p.z < im.sizeZ ∧ p.t < im.sizeT ∧
       p.sizeX = im.sizeX ∧ p.sizeY = im.sizeY) := by
  constructor
  · intro hp
    simp only [planeParamsGen, List.mem_flatMap, List.mem_map, List.mem_range] at hp
    obtain ⟨c, hc, z, hz, t, ht, rfl⟩ := hp
    exact ⟨rfl, hc, hz, ht, rfl, rfl⟩
  · rintro ⟨h1, h2, h3, h4, h5, h6⟩
    simp only [planeParamsGen, List.mem_flatMap, List.mem_map, List.mem_range]
    refine ⟨p.c, h2, p.z, h3, p.t, h4, ?_⟩
    cases p
    simp_all

/-- The plane enumeration is strictly increasing in the lexicographic
order channel-then-z-then-time: the channel loop is outermost, the time
loop innermost. -/
theorem planeParamsGen_pairwise (im : ImageDims) :
    (planeParamsGen im).Pairwise planeLt := by
  unfold planeParamsGen
  apply range_flatMap_pairwise
  · intro c
    apply range_flatMap_pairwise
    · intro z
      rw [List.pairwise_map]
      apply List.Pairwise.imp ?_ (List.pairwise_lt_range im.sizeT)
      intro t1 t2 ht
      exact Or.inr ⟨rfl, Or.inr ⟨rfl, ht⟩⟩
    · intro z1 z2 hz x hx y hy
      simp only [List.mem_map, List.mem_range] at hx hy
      obtain ⟨t1, _, rfl⟩ := hx
      obtain ⟨t2, _, rfl⟩ := hy
      exact Or.inr ⟨rfl, Or.inl hz⟩
  · intro c1 c2 hc x hx y hy
    simp only [List.mem_flatMap, List.mem_map, List.mem_range] at hx hy
    obtain ⟨z1, _, t1, _, rfl⟩ := hx
    obtain ⟨z2, _, t2, _, rfl⟩ := hy
    exact Or.inl hc

/-- The plane enumeration has exactly `sizeC * sizeZ * sizeT` entries. -/
theorem planeParamsGen_length (im : ImageDims) :
    (planeParamsGen im).length = im.sizeC * im.sizeZ * im.sizeT := by
  unfold planeParamsGen
  rw [Nat.mul_assoc]
  apply range_flatMap_length
  intro c
  apply range_flatMap_length
  intro z
  simp

/-- C6: for every image, `planeParamsGen` yields exactly
`sizeC * sizeZ * sizeT` WorkItems — the in-bounds `(c, z, t)` tuples,
each carrying `width = sizeX` and `height = sizeY` — strictly sorted in
the lexicographic order with channel outermost, z-slice middle and time
innermost (which, with the membership and length facts, pins the list
down completely); in particular `sizeC = 2, sizeZ = 1, sizeT = 1` yields
exactly `(c=0,z=0,t=0)` then `(c=1,z=0,t=0)`. -/
theorem C6_plane_enumeration_order (im : ImageDims) :
    (planeParamsGen im).length = im.sizeC * im.sizeZ * im.sizeT ∧
    (∀ p : PlaneParams, p ∈ planeParamsGen im ↔
      (p.iid = im.id ∧ p.c < im.sizeC ∧ p.z < im.sizeZ ∧ p.t < im.sizeT ∧
       p.sizeX = im.sizeX ∧ p.sizeY = im.sizeY)) ∧
    (planeParamsGen im).Pairwise planeLt ∧
    planeParamsGen { id := 7, sizeX := 4, sizeY := 5, sizeC := 2, sizeZ := 1, sizeT := 1 } =
      [{ iid := 7, c := 0, z := 0, t := 0, sizeX := 4, sizeY := 5 },
       { iid := 7, c := 1, z := 0, t := 0, sizeX := 4, sizeY := 5 }] :=
  ⟨planeParamsGen_length im, mem_planeParamsGen im,
   planeParamsGen_pairwise im, by decide⟩

/-- C8: the pending path of `FeatureFile(iid, z, c, t)` is the category
directory `SmallFeatureSet` joined with
`image<iid, 8-digit zero-padded>-c<channel>-z<zSlice>-t<timePoint>.tmp`,
the final path is the same stem with the serialized-array extension
`.npy`, and both are functions of the identity tuple alone — width and
height are not inputs of `FeatureFile.__init__` at all.  The padding
really is to (at least) eight digits, and the concrete identity
`(iid=1, z=2, c=3, t=4)` maps to
`SmallFeatureSet/image00000001-c3-z2-t4.{tmp,npy}`. -/
theorem C8_paths_determined_by_identity (iid c z t : Nat) :
    (FeatureFile.init iid z c t).lockPath =
      "SmallFeatureSet" ++ "/" ++ "image" ++ zeroPad8 iid ++ "-c" ++ toString c ++
        "-z" ++ toString z ++ "-t" ++ toString t ++ ".tmp" ∧
    (FeatureFile.init iid z c t).npy =
      "SmallFeatureSet" ++ "/" ++ "image" ++ zeroPad8 iid ++ "-c" ++ toString c ++
        "-z" ++ toString z ++ "-t" ++ toString t ++ ".npy" ∧
    (∃ stem : String, (FeatureFile.init iid z c t).lockPath = stem ++ ".tmp" ∧
      (FeatureFile.init iid z c t).npy = stem ++ ".npy") ∧
    (zeroPad8 iid).length = max 8 (toString iid).length ∧
    (FeatureFile.init 1 2 3 4).lockPath = "SmallFeatureSet/image00000001-c3-z2-t4.tmp" ∧
    (FeatureFile.init 1 2 3 4).npy = "SmallFeatureSet/image00000001-c3-z2-t4.npy" := by
  refine ⟨?_, ?_,
    ⟨"SmallFeatureSet" ++ "/" ++ ("image" ++ zeroPad8 iid ++ "-c" ++ toString c ++
      "-z" ++ toString z ++ "-t" ++ toString t), rfl, rfl⟩, ?_, rfl, rfl⟩
  · simp [FeatureFile.init, FeatureFile.lockPath, String.append_assoc]
    rw [← String.append_assoc]
    rfl
  · simp [FeatureFile.init, String.append_assoc]
    rw [← String.append_assoc]
    rfl
  · unfold zeroPad8
    rw [String.length_append]
    have h1 : (String.mk (List.replicate (8 - (toString iid).length) '0')).length
        = (List.replicate (8 - (toString iid).length) '0').length := rfl
    rw [h1, List.length_replicate]
    omega
